import Mathlib

/-!
# Verification of the rhai function-call core

A shallow embedding of the function-call machinery of the rhai scripting
engine (files `src/func/call.rs`, `src/eval/cache.rs`, `src/types/fn_ptr.rs`,
`src/api/call_fn.rs`, `src/func/hashing.rs`, `src/engine.rs`), together with
theorems settling the specification claims about it.

Conventions:
* machine integers (`u64` hashes, `INT = i64`) are modelled as `Nat` / `Int`;
* Rust `Result` is `Except`, `Option` is `Option`;
* mutable argument slots (`&mut [&mut Dynamic]`) are modelled as a
  `List Dynamic` of the values held in the slots, returned alongside the
  result so that mutation is visible;
* external collaborators that are not part of the source tree (the
  tokenizer's `is_valid_function_name`, the bloom filter, the module type,
  the 64-bit hash function, engine limits) are modelled from the spec and
  marked `Modelled from the spec:` in their doc comments.
-/

namespace Rhai

/-- Source position attached to errors (`Position`); `nonePos` is `Position::NONE`. -/
inductive Pos where
  | nonePos : Pos
  | at_ (line col : Nat) : Pos
deriving DecidableEq, Repr

/-- Error kinds of `EvalAltResult` that the call core can produce
(the enum itself lives outside `src/`; the variants and payloads here are
exactly the ones constructed by the code under `src/`). -/
inductive Err where
  | functionNotFound (sig : String) (pos : Pos)
  | nonPureMethodCallOnConstant (name : String) (pos : Pos)
  | mismatchOutputType (expected actual : String) (pos : Pos)
  | indexingType (desc : String) (pos : Pos)
  | dotExpr (desc : String) (pos : Pos)
  | runtimeErr (msg : String) (pos : Pos)
  | dataRace (desc : String) (pos : Pos)
  | tooManyOperations (pos : Pos)
  | assertionFailure (msg : String)
deriving DecidableEq, Repr

/-- `EvalAltResult::fill_position`: set the position if it is still `NONE`. -/
def Err.fill_position (e : Err) (p : Pos) : Err :=
  match e with
  | .functionNotFound s q => .functionNotFound s (if q = .nonePos then p else q)
  | .nonPureMethodCallOnConstant s q =>
      .nonPureMethodCallOnConstant s (if q = .nonePos then p else q)
  | .mismatchOutputType a b q => .mismatchOutputType a b (if q = .nonePos then p else q)
  | .indexingType s q => .indexingType s (if q = .nonePos then p else q)
  | .dotExpr s q => .dotExpr s (if q = .nonePos then p else q)
  | .runtimeErr s q => .runtimeErr s (if q = .nonePos then p else q)
  | .dataRace s q => .dataRace s (if q = .nonePos then p else q)
  | .tooManyOperations q => .tooManyOperations (if q = .nonePos then p else q)
  | .assertionFailure s => .assertionFailure s

/-- Rust `TypeId`s that occur in the call core.  `tDynamic` is
`TypeId::of::<Dynamic>`, the wildcard sentinel used by the resolver. -/
inductive TypeId where
  | tInt
  | tBool
  | tChar
  | tStr
  | tUnit
  | tFnPtr
  | tDynamic
deriving DecidableEq, Repr

/-- The `Dynamic` tagged value.  Each variant carries the read-only flag of
its access mode (`Dynamic::is_read_only`).  Shared cells (`no_closure`
feature) are outside the model, so `is_locked` is uniformly `false`. -/
inductive Dynamic where
  | intV (ro : Bool) (i : Int)
  | boolV (ro : Bool) (b : Bool)
  | charV (ro : Bool) (c : Char)
  | strV (ro : Bool) (s : String)
  | unitV (ro : Bool)
  | fnPtrV (ro : Bool) (name : String) (curry : List Dynamic)
deriving Repr

/-- Plain (non-constant) integer value. -/
def Dynamic.intD (i : Int) : Dynamic := .intV false i

/-- Plain string value. -/
def Dynamic.strD (s : String) : Dynamic := .strV false s

/-- `Dynamic::UNIT`. -/
def Dynamic.unitD : Dynamic := .unitV false

/-- `Dynamic::is_read_only`. -/
def Dynamic.readOnly : Dynamic → Bool
  | .intV ro _ => ro
  | .boolV ro _ => ro
  | .charV ro _ => ro
  | .strV ro _ => ro
  | .unitV ro => ro
  | .fnPtrV ro _ _ => ro

/-- `Dynamic::type_id`. -/
def Dynamic.type_id : Dynamic → TypeId
  | .intV _ _ => .tInt
  | .boolV _ _ => .tBool
  | .charV _ _ => .tChar
  | .strV _ _ => .tStr
  | .unitV _ => .tUnit
  | .fnPtrV _ _ _ => .tFnPtr

/-- `Dynamic::type_name` (the engine's `map_type_name` is the identity when
no custom type names are registered). -/
def Dynamic.type_name : Dynamic → String
  | .intV _ _ => "i64"
  | .boolV _ _ => "bool"
  | .charV _ _ => "char"
  | .strV _ _ => "string"
  | .unitV _ => "()"
  | .fnPtrV _ _ _ => "Fn"

/-- `Dynamic::is::<ImmutableString>()`. -/
def Dynamic.isStr : Dynamic → Bool
  | .strV _ _ => true
  | _ => false

/-- `Dynamic::is_locked`: true only for a shared cell with an active borrow.
Shared cells are not modelled, so this is constantly `false`. -/
def Dynamic.is_locked : Dynamic → Bool := fun _ => false

/-- `Dynamic::into_immutable_string`: succeed on strings, otherwise report
the value's type name. -/
def Dynamic.into_immutable_string : Dynamic → Except String String
  | .strV _ s => .ok s
  | d => .error d.type_name

/-- The function-pointer value: `(name, curried-args)` (`src/types/fn_ptr.rs`). -/
structure FnPtr where
  name : String
  curry : List Dynamic
deriving Repr

/-- Embed a function pointer back into a `Dynamic`. -/
def Dynamic.ofFnPtr (fp : FnPtr) : Dynamic := .fnPtrV false fp.name fp.curry

/-- `FnPtr::is_curried`. -/
def FnPtr.is_curried (fp : FnPtr) : Bool := !fp.curry.isEmpty

/-- Modelled from the spec: `is_valid_function_name` from the tokenizer
(`src/tokenizer.rs` is not part of the source tree).  A valid function name
is a valid identifier: non-empty, the first character an ASCII letter or
underscore, every later character an ASCII letter, digit or underscore.
In particular names containing `$` — such as the reserved anonymous prefix
`anon$` — are not valid function names, which matches how
`src/func/call.rs` always tests `!is_anon && !is_valid_function_name(name)`. -/
def is_valid_function_name (s : String) : Bool :=
  let first := s.data.headD ' '
  !s.isEmpty && (first.isAlpha || first == '_') &&
    s.data.all (fun c => c.isAlphanum || c == '_')

/-- `engine::FN_ANONYMOUS`. -/
def FN_ANONYMOUS : String := "anon$"

/-- `is_anonymous_fn` (`src/func/call.rs`): does the name start with the
anonymous prefix?  (Stated on the character lists so that concrete
instances evaluate.) -/
def is_anonymous_fn (name : String) : Bool := FN_ANONYMOUS.data.isPrefixOf name.data

/-- `TryFrom<ImmutableString> for FnPtr` (`src/types/fn_ptr.rs` lines
250-264): accept exactly the valid function names, otherwise
`ErrorFunctionNotFound` carrying the rejected name and `Position::NONE`. -/
def FnPtr.try_from (value : String) : Except Err FnPtr :=
  if is_valid_function_name value then
    .ok { name := value, curry := [] }
  else
    .error (.functionNotFound value .nonePos)

/-- The value-level semantics of the `Fn(s)` special form
(`src/func/call.rs` lines 1007-1020): coerce the evaluated argument to a
string, build a function pointer from it, and fill the error position with
the argument's position. -/
def fn_special_form (arg_value : Dynamic) (arg_pos : Pos) : Except Err Dynamic :=
  match arg_value.into_immutable_string with
  | .error typ => .error (.mismatchOutputType "string" typ arg_pos)
  | .ok s =>
      match FnPtr.try_from s with
      | .ok fp => .ok (.ofFnPtr fp)
      | .error e => .error (e.fill_position arg_pos)

/-- The value-level semantics of the `curry(fp, …)` special form
(`src/func/call.rs` lines 1022-1044): take the pointer's `(name, curry)`
and append the evaluated extra arguments to the curry list. -/
def curry_form (fp : FnPtr) (extra : List Dynamic) : FnPtr :=
  { name := fp.name, curry := fp.curry ++ extra }

/-- Argument assembly of `FnPtr::call_raw` (`src/types/fn_ptr.rs` lines
214-241): when curried, prepend the curried values to the call-site
arguments; when a `this` pointer is present, push it as the first slot. -/
def FnPtr.call_raw_args (fp : FnPtr) (this? : Option Dynamic)
    (arg_values : List Dynamic) : List Dynamic :=
  let av := if fp.is_curried then fp.curry ++ arg_values else arg_values
  match this? with
  | some obj => obj :: av
  | none => av

/-! ## Callables, the resolution cache and the resolver (`src/func/call.rs`) -/

/-- A native host function over the mutable argument slots.  It returns the
(possibly failing) result together with the values left in the slots, so
that in-place mutation of the slots is observable. -/
def NativeFn : Type := List Dynamic → Except Err Dynamic × List Dynamic

/-- Modelled from the spec: `CallableFunction`
(`src/func/callable_function.rs` is not in the source tree; spec §3
"Resolved Callable": a sum of Native / Plugin / Script / BuiltinOperator,
each reporting pure-or-method and native-or-script). -/
inductive CallableFunction where
  | native (pure : Bool) (f : NativeFn)
  | plugin (pure : Bool) (f : NativeFn)
  | script (name : String) (params : List String)
  | builtinOp (f : NativeFn)

/-- `CallableFunction::is_pure`. -/
def CallableFunction.is_pure : CallableFunction → Bool
  | .native p _ => p
  | .plugin p _ => p
  | .script _ _ => false
  | .builtinOp _ => true

/-- `CallableFunction::is_method`. -/
def CallableFunction.is_method : CallableFunction → Bool
  | .native p _ => !p
  | .plugin p _ => !p
  | .script _ _ => true
  | .builtinOp _ => false

/-- `CallableFunction::is_native`. -/
def CallableFunction.is_native : CallableFunction → Bool
  | .script _ _ => false
  | _ => true

/-- `CallableFunction::is_plugin_fn`. -/
def CallableFunction.is_plugin_fn : CallableFunction → Bool
  | .plugin _ _ => true
  | _ => false

/-- The callable's native body, when it has one. -/
def CallableFunction.nativeCall : CallableFunction → Option NativeFn
  | .native _ f => some f
  | .plugin _ f => some f
  | .builtinOp f => some f
  | .script _ _ => none

/-- `FnResolutionCacheEntry` (`src/eval/cache.rs`): a resolved callable and
its optional source name. -/
structure FnResolutionCacheEntry where
  func : CallableFunction
  source : Option String

/-- `FnResolutionCache` (`src/eval/cache.rs`): the memo map plus the bloom
filter.  The map (`StraightHashMap`) is modelled as an association list on
the `u64` key; the bloom filter (`BloomFilterU64`, whose implementation is
not in the source tree) is modelled from the spec as an exact
"seen-before" set of hashes — the idealisation of a bloom filter without
false positives. -/
structure FnResolutionCache where
  map : List (Nat × Option FnResolutionCacheEntry)
  filter : List Nat

/-- The empty cache. -/
def FnResolutionCache.empty : FnResolutionCache := { map := [], filter := [] }

/-- Key lookup in the memo map (`HashMap::entry`: `Occupied` iff `some`). -/
def mapLookup (m : List (Nat × Option FnResolutionCacheEntry)) (h : Nat) :
    Option (Option FnResolutionCacheEntry) :=
  match m with
  | [] => none
  | (k, v) :: rest => if k = h then some v else mapLookup rest h

/-- `FnResolutionCache::clear` (`src/eval/cache.rs` lines 33-40). -/
def FnResolutionCache.clear (_c : FnResolutionCache) : FnResolutionCache :=
  FnResolutionCache.empty

/-- The stack of resolution caches (`Caches`, `src/eval/cache.rs`). -/
abbrev CachesStack : Type := List FnResolutionCache

/-- `Caches::push_fn_resolution_cache`. -/
def push_fn_resolution_cache (s : CachesStack) : CachesStack :=
  s ++ [FnResolutionCache.empty]

/-- `Caches::rewind_fn_resolution_caches`. -/
def rewind_fn_resolution_caches (s : CachesStack) (len : Nat) : CachesStack :=
  s.take len

/-- Modelled from the spec: a module of functions (`src/module/` is not in
the source tree).  Only the interface used by the resolver is modelled:
lookup by hash (`get_fn` for the module's own functions, `get_qualified_fn`
for its qualified index), the module id, and the dynamic-overload
advertisement `may_contain_dynamic_fn`. -/
structure Module' where
  id : Option String
  get_fn : Nat → Option CallableFunction
  get_qualified_fn : Nat → Option CallableFunction
  may_contain_dynamic_fn : Nat → Bool

/-- `lib.iter().chain(global_modules.iter()).find_map(|m| m.get_fn(hash).map(|f| (f, m.id_raw())))`. -/
def find_map_fn (ms : List Module') (h : Nat) : Option (CallableFunction × Option String) :=
  match ms with
  | [] => none
  | m :: rest =>
      match m.get_fn h with
      | some f => some (f, m.id)
      | none => find_map_fn rest h

/-- `global_sub_modules.values().find_map(|m| m.get_qualified_fn(hash).map(|f| (f, m.id_raw())))`. -/
def find_map_qualified (ms : List Module') (h : Nat) :
    Option (CallableFunction × Option String) :=
  match ms with
  | [] => none
  | m :: rest =>
      match m.get_qualified_fn h with
      | some f => some (f, m.id)
      | none => find_map_qualified rest h

/-- Operator tokens are identified by their literal syntax. -/
def OpToken : Type := String

/-- The static context the resolver consults: the call-site library `lib`,
the engine's globals, the qualified-function index of the imports stack
(`GlobalRuntimeState::get_qualified_fn`, modelled from the spec), the
built-in operator tables, and the typed-hash function
`calc_fn_hash_full` — the concrete 64-bit ahash is external, so it is
carried as an abstract function field. -/
structure ResolveEnv where
  hfull : Nat → List TypeId → Nat
  lib : List Module'
  global_modules : List Module'
  global_get_qualified_fn : Nat → Option (CallableFunction × Option String)
  global_may_contain_dynamic_fn : Nat → Bool
  global_sub_modules : List Module'
  get_builtin_binary_op_fn : OpToken → Dynamic → Dynamic → Option NativeFn
  get_builtin_op_assignment_fn : OpToken → Dynamic → Dynamic → Option NativeFn
  is_op_assignment : OpToken → Bool

/-- One search pass of the resolver (`src/func/call.rs` lines 196-212):
the call-site library chained with the global modules; when argument slots
were supplied (`hasArgs`), additionally the imports-stack qualified index
and the engine's static sub-modules.  Scripted functions are not exposed
globally, so the two qualified sources are skipped when `hasArgs = false`. -/
def ResolveEnv.search (env : ResolveEnv) (hasArgs : Bool) (h : Nat) :
    Option (CallableFunction × Option String) :=
  let base := find_map_fn (env.lib ++ env.global_modules) h
  if hasArgs then
    match base with
    | some fs => some fs
    | none =>
        match env.global_get_qualified_fn h with
        | some fs => some fs
        | none => find_map_qualified env.global_sub_modules h
  else base

/-- `is_dynamic` (`src/func/call.rs` lines 231-244): does any searched
module advertise a possible dynamic-typed overload for the base hash? -/
def ResolveEnv.is_dynamic (env : ResolveEnv) (hash_base : Nat) : Bool :=
  env.lib.any (fun m => m.may_contain_dynamic_fn hash_base) ||
  env.global_modules.any (fun m => m.may_contain_dynamic_fn hash_base) ||
  env.global_may_contain_dynamic_fn hash_base ||
  env.global_sub_modules.any (fun m => m.may_contain_dynamic_fn hash_base)

/-- Modelled from the spec: `MAX_DYNAMIC_PARAMETERS`
(`src/api/default_limits.rs` is not in the source tree). -/
def MAX_DYNAMIC_PARAMETERS : Nat := 16

/-- The wildcard probe hash for a bitmask (`src/func/call.rs` lines
290-305): parameter `i`'s type-id is replaced with the `Dynamic` wildcard
when bit `num_args - i - 1` of the bitmask is set (so the most-significant
bit corresponds to the left-most parameter). -/
def probe_hash (env : ResolveEnv) (hash_base : Nat) (args : List TypeId)
    (bitmask : Nat) : Nat :=
  env.hfull hash_base
    (args.enum.map fun p =>
      if bitmask &&& (1 <<< (args.length - p.1 - 1)) = 0 then p.2 else TypeId.tDynamic)

/-- The wildcard-probe loop of `resolve_fn` (`src/func/call.rs` lines
196-308) after the initial probe at the typed hash failed and
`max_bitmask` is known.  `hash` is the current value of the mutable `hash`
variable, `bitmask` the current bitmask; the loop body recomputes `hash`
from the current bitmask, searches it and increments the bitmask, exiting
as soon as `bitmask >= max_bitmask`.  Returned are the final value of the
`hash` variable (the key later fed to the bloom filter) and the search
outcome.  `fuel` is a structural-recursion bound, irrelevant as long as it
is at least `max_bitmask - bitmask`. -/
def resolve_probe_loop (env : ResolveEnv) (hasArgs : Bool) (hash_base : Nat)
    (args : List TypeId) (max_bitmask : Nat) :
    Nat → Nat → Nat → Nat × Option (CallableFunction × Option String)
  | 0, hash, _ => (hash, none)
  | fuel + 1, hash, bitmask =>
      if max_bitmask ≤ bitmask then (hash, none)
      else
        let h' := probe_hash env hash_base args bitmask
        match env.search hasArgs h' with
        | some fs => (h', some fs)
        | none => resolve_probe_loop env hasArgs hash_base args max_bitmask fuel h' (bitmask + 1)

/-- The built-in-operator fallback (`src/func/call.rs` lines 258-277),
reached when all permutations are exhausted and `num_args == 2`: op-assign
tokens consult the op-assignment table, other tokens the binary table, no
token finds nothing. -/
def builtin_outcome (env : ResolveEnv) (op_token : Option OpToken)
    (args : List Dynamic) : Option FnResolutionCacheEntry :=
  match args, op_token with
  | a :: b :: _, some token =>
      if env.is_op_assignment token then
        (env.get_builtin_op_assignment_fn token a b).map
          (fun f => { func := .builtinOp f, source := none })
      else
        (env.get_builtin_binary_op_fn token a b).map
          (fun f => { func := .builtinOp f, source := none })
  | _, _ => none

/-- The outcome of a `resolve_fn` call: the resolved entry (`None` for a
negative outcome), the updated cache, and the caller-local scratch slot
(`local_entry`), which holds the entry exactly when the admission policy
kept it out of the map. -/
structure ResolveResult where
  result : Option FnResolutionCacheEntry
  cache : FnResolutionCache
  local_entry : Option FnResolutionCacheEntry

/-- The bloom-filter admission step shared by the return paths of
`resolve_fn` (`src/func/call.rs` lines 220-227 and 279-286):
`filter.is_absent_and_set(filterKey)` — when the filter did not contain
`filterKey`, set it and keep the entry in the caller's scratch slot;
otherwise insert the entry into the map under `mapKey`.  In the source
`mapKey` is the hash captured by `cache.map.entry(hash)` before the probe
loop, while `filterKey` is the final value of the mutable `hash` variable;
the two differ when the loop rewrote `hash` for wildcard probes. -/
def offer (cache : FnResolutionCache) (mapKey filterKey : Nat)
    (entry : Option FnResolutionCacheEntry) : ResolveResult :=
  if filterKey ∈ cache.filter then
    { result := entry,
      cache := { cache with map := (mapKey, entry) :: cache.map },
      local_entry := none }
  else
    { result := entry,
      cache := { cache with filter := filterKey :: cache.filter },
      local_entry := entry }

/-- The hash probed first by the resolver (`src/func/call.rs` lines
182-184): the base hash itself when no argument slots were supplied,
otherwise `calc_fn_hash_full` of the base hash and the slots' type-ids. -/
def typed_hash (env : ResolveEnv) (hash_base : Nat)
    (args : Option (List Dynamic)) : Nat :=
  match args with
  | none => hash_base
  | some as_ => env.hfull hash_base (as_.map Dynamic.type_id)

/-- `Engine::resolve_fn` (`src/func/call.rs` lines 167-311).  `args` is
`Some` of the argument-slot values when slots were supplied.  A zero base
hash resolves to nothing; the typed hash is the base hash extended with
the slots' type-ids when slots are present; a cache hit returns the memo;
on a miss the search cascade runs, followed (when allowed and advertised)
by the wildcard-bitmask loop and (for two arguments) the built-in operator
tables, and the outcome passes through the bloom-filter admission. -/
def resolve_fn (env : ResolveEnv) (cache : FnResolutionCache)
    (op_token : Option OpToken) (hash_base : Nat) (args : Option (List Dynamic))
    (allow_dynamic : Bool) : ResolveResult :=
  if hash_base = 0 then { result := none, cache := cache, local_entry := none }
  else
    let hash : Nat := typed_hash env hash_base args
    match mapLookup cache.map hash with
    | some stored => { result := stored, cache := cache, local_entry := none }
    | none =>
        let num_args := (args.map List.length).getD 0
        let argTypes := ((args.getD []).map Dynamic.type_id)
        match env.search args.isSome hash with
        | some fs => offer cache hash hash (some { func := fs.1, source := fs.2 })
        | none =>
            let max_bitmask :=
              if allow_dynamic && decide (0 < num_args) && env.is_dynamic hash_base
              then 1 <<< (min num_args MAX_DYNAMIC_PARAMETERS) else 0
            let step := resolve_probe_loop env args.isSome hash_base argTypes
              max_bitmask max_bitmask hash 1
            match step.2 with
            | some fs => offer cache hash step.1 (some { func := fs.1, source := fs.2 })
            | none =>
                if num_args ≠ 2 then
                  { result := none, cache := cache, local_entry := none }
                else
                  offer cache hash step.1
                    (builtin_outcome env op_token (args.getD []))

/-! ## Native invocation (`Engine::exec_native_fn_call`) -/

/-- Reserved names of `src/engine.rs`. -/
def KEYWORD_PRINT : String := "print"

/-- `engine::KEYWORD_DEBUG`. -/
def KEYWORD_DEBUG : String := "debug"

/-- `engine::FN_IDX_GET`. -/
def FN_IDX_GET : String := "index$get$"

/-- `engine::FN_IDX_SET`. -/
def FN_IDX_SET : String := "index$set$"

/-- `engine::FN_GET`. -/
def FN_GET : String := "get$"

/-- `engine::FN_SET`. -/
def FN_SET : String := "set$"

/-- `Engine::gen_fn_call_signature` (`src/func/call.rs` lines 141-156):
the rendered signature `name (T1, T2, …)`, with strings displayed as the
union type they can be received as. -/
def gen_fn_call_signature (fn_name : String) (args : List Dynamic) : String :=
  fn_name ++ " (" ++
    String.intercalate ", "
      (args.map fun a =>
        if a.isStr then "&str | ImmutableString | String" else a.type_name) ++
    ")"

/-- Modelled from the spec: the operation counter of the global runtime
state (`Engine::track_operation` lives outside the source tree; spec §5:
a synchronous counter bump that may return ErrorTooManyOperations). -/
structure GlobalState where
  ops : Nat
  max_ops : Option Nat

/-- Modelled from the spec: `track_operation` increments the operation
counter and fails once the configured limit is exceeded. -/
def track_operation (g : GlobalState) (pos : Pos) : Except Err GlobalState :=
  let g' : GlobalState := { g with ops := g.ops + 1 }
  match g.max_ops with
  | some m => if m < g'.ops then .error (.tooManyOperations pos) else .ok g'
  | none => .ok g'

/-- `Engine::check_return_value` (`src/engine.rs` lines 321-330): data-size
limits are an external collaborator, so the check is a no-op here. -/
def check_return_value (r : Except Err Dynamic) : Except Err Dynamic := r

/-- The enumerate-skip-find of `ensure_no_data_race`: the absolute index of
the first locked slot at or after `offset`. -/
def find_locked_index (args : List Dynamic) (offset : Nat) : Option Nat :=
  match args with
  | [] => none
  | a :: rest => if a.is_locked then some offset else find_locked_index rest (offset + 1)

/-- `ensure_no_data_race` (`src/func/call.rs` lines 112-130): find the
first locked argument, skipping the first slot when it is the mutable
receiver. -/
def ensure_no_data_race (fn_name : String) (args : List Dynamic)
    (is_ref_mut : Bool) : Except Err Unit :=
  let skip := if is_ref_mut then 1 else 0
  match find_locked_index (args.drop skip) skip with
  | some n =>
      .error (.dataRace
        ("argument #" ++ toString (n + 1) ++ " of function " ++ fn_name) .nonePos)
  | none => .ok ()

/-- The error built when native resolution fails
(`src/func/call.rs` lines 457-522). -/
def fn_call_error (fn_name : String) (args : List Dynamic) (pos : Pos) : Err :=
  if fn_name = FN_IDX_GET then
    .indexingType
      ((args.getD 0 .unitD).type_name ++ " [" ++ (args.getD 1 .unitD).type_name ++ "]") pos
  else if fn_name = FN_IDX_SET then
    .indexingType
      ((args.getD 0 .unitD).type_name ++ " [" ++ (args.getD 1 .unitD).type_name ++ "] = " ++
        (args.getD 2 .unitD).type_name) pos
  else if FN_GET.data.isPrefixOf fn_name.data then
    .dotExpr ("Unknown property " ++ fn_name.drop FN_GET.length ++
      " - a getter is not registered for type " ++ (args.getD 0 .unitD).type_name) pos
  else if FN_SET.data.isPrefixOf fn_name.data then
    .dotExpr ("No writable property " ++ fn_name.drop FN_SET.length ++
      " - a setter is not registered for type " ++ (args.getD 0 .unitD).type_name ++
      " to handle " ++ (args.getD 1 .unitD).type_name) pos
  else
    .functionNotFound (gen_fn_call_signature fn_name args) pos

/-- Steps 5-6 of native invocation (`src/func/call.rs` lines 428-454):
check the return value, then post-process the reserved names `print` and
`debug` — their result is coerced to a string, routed through the engine
callback and replaced by unit, with a mismatch error when the coercion
fails. -/
def post_process (fn_name : String) (pos : Pos) (is_method : Bool)
    (r : Except Err Dynamic) : Except Err (Dynamic × Bool) :=
  match check_return_value r with
  | .error e => .error e
  | .ok result =>
      if fn_name = KEYWORD_PRINT || fn_name = KEYWORD_DEBUG then
        match result.into_immutable_string with
        | .error typ => .error (.mismatchOutputType "string" typ pos)
        | .ok _ => .ok (.unitD, false)
      else .ok (result, is_method)

/-- The outcome of `exec_native_fn_call`: the call result, the updated
global state and cache, and the values finally left in the caller's
argument slots (after the `ArgBackup` restoration ran on every exit path). -/
structure ExecResult where
  result : Except Err (Dynamic × Bool)
  global : GlobalState
  cache : FnResolutionCache
  args : List Dynamic

/-- `Engine::exec_native_fn_call` (`src/func/call.rs` lines 324-523).
Steps: operation accounting; resolution (with wildcard fallback allowed);
for a pure function called through a mutable first reference, the
`ArgBackup` swap — the function body runs on a clone of the first slot
(value-identical, so the body is applied to the same values) and the
original is put back unconditionally afterwards, i.e. the final first slot
is the caller's original value and the body's writes to it are discarded;
the plugin purity guard; invocation; return-value check; `print`/`debug`
post-processing; and the resolution-failure errors. -/
def exec_native_fn_call (env : ResolveEnv) (g : GlobalState)
    (cache : FnResolutionCache) (fn_name : String) (op_token : Option OpToken)
    (hash : Nat) (args : List Dynamic) (is_ref_mut : Bool) (pos : Pos) :
    ExecResult :=
  match track_operation g pos with
  | .error e => { result := .error e, global := g, cache := cache, args := args }
  | .ok g1 =>
      let r := resolve_fn env cache op_token hash (some args) true
      match r.result with
      | none =>
          { result := .error (fn_call_error fn_name args pos),
            global := g1, cache := r.cache, args := args }
      | some entry =>
          let func := entry.func
          let is_method := func.is_method
          match func.nativeCall with
          | none =>
              { result := .error (.assertionFailure "func.is_native()"),
                global := g1, cache := r.cache, args := args }
          | some f =>
              let swap := is_ref_mut && func.is_pure && !args.isEmpty
              if func.is_plugin_fn && !func.is_pure && !args.isEmpty &&
                  (args.headD .unitD).readOnly then
                { result := .error (.nonPureMethodCallOnConstant fn_name pos),
                  global := g1, cache := r.cache, args := args }
              else
                let callRes := f args
                let finalArgs :=
                  if swap then args.headD .unitD :: callRes.2.tail else callRes.2
                { result := post_process fn_name pos is_method callRes.1,
                  global := g1, cache := r.cache, args := finalArgs }

/-! ## The public named-function entry point (`src/api/call_fn.rs`) -/

/-- A script-function definition as keyed in the AST's shared library
(name and parameter list; the body is run by the external
`call_script_fn`). -/
structure ScriptFnDefKey where
  name : String
  params : List String

/-- `Module::get_script_fn` on the AST's shared library: lookup by name
and arity. -/
def get_script_fn (l : List ScriptFnDefKey) (name : String) (n : Nat) :
    Option ScriptFnDefKey :=
  l.find? (fun fd => fd.name = name && fd.params.length = n)

/-- The function-call stage of `Engine::_call_fn`
(`src/api/call_fn.rs` lines 278-301): data-race check, library lookup by
name and arity, then script invocation (`run`, an external collaborator),
or `ErrorFunctionNotFound` carrying just the function name and
`Position::NONE`. -/
def call_fn_core (run : ScriptFnDefKey → List Dynamic → Except Err Dynamic)
    (shared_lib : List ScriptFnDefKey) (name : String) (args : List Dynamic) :
    Except Err Dynamic :=
  match ensure_no_data_race name args false with
  | .error e => .error e
  | .ok _ =>
      match get_script_fn shared_lib name args.length with
      | some fd => run fd args
      | none => .error (.functionNotFound name .nonePos)

/-! ## The `is_def_fn` special form (`src/func/call.rs` lines 1055-1080) -/

/-- Modelled from the spec: `MAX_USIZE_INT` (defined at the crate root,
not in the source tree): the largest `usize` value representable in the
64-bit `INT` type. -/
def MAX_USIZE_INT : Int := 2 ^ 63 - 1

/-- Modelled from the spec: what `is_def_fn` consults — the script-function
base-hash calculation (`calc_fn_hash`, whose 64-bit ahash core is
external) and `Engine::has_script_fn` (not in the source tree; spec:
"Return whether a script function `s/n` exists"). -/
structure DefFnEnv where
  calc_fn_hash : String → Nat → Nat
  has_script_fn : Nat → Bool

/-- The `is_def_fn(name, n)` special form of `make_function_call`
(`src/func/call.rs` lines 1055-1080): out-of-range arities yield `false`
without error, in-range arities ask `has_script_fn` for the hash of
`(name, n)`. -/
def is_def_fn_form (env : DefFnEnv) (fn_name : String) (num_params : Int) : Bool :=
  if num_params < 0 || MAX_USIZE_INT < num_params then false
  else env.has_script_fn (env.calc_fn_hash fn_name num_params.toNat)

/-! ## Spec-side definitions used for refinement statements -/

/-- The wildcard substitution as worded by the spec (§4.5 step 5 and the
tie-break rule): "for every set bit `i` replace the i-th type-id with the
wildcard-type sentinel", "MSB corresponds to the left-most parameter" —
written independently of the source's shift-and-mask arithmetic, with
`Nat.testBit`. -/
def spec_wildcard_types (args : List TypeId) (bitmask : Nat) : List TypeId :=
  args.enum.map fun p =>
    if bitmask.testBit (args.length - 1 - p.1) then TypeId.tDynamic else p.2

/-- The wildcard fallback as worded by the spec: iterate the bitmasks
`1 .. 2^min(arity, MAX_DYNAMIC_PARAMETERS)` in increasing numeric order
and return the first probe that finds a function. -/
def spec_wildcard_lookup (env : ResolveEnv) (hasArgs : Bool) (hash_base : Nat)
    (args : List TypeId) (max_bitmask : Nat) :
    Option (CallableFunction × Option String) :=
  (List.range' 1 (max_bitmask - 1)).findSome?
    (fun m => env.search hasArgs (env.hfull hash_base (spec_wildcard_types args m)))

/-- The cache invariant claimed by the spec: every hash present as a key
in the memo map has its bloom-filter bit set. -/
def cacheInv (c : FnResolutionCache) : Prop :=
  ∀ h e, (h, e) ∈ c.map → h ∈ c.filter

/-- The invariant lifted to the cache stack. -/
def cachesInv (s : CachesStack) : Prop := ∀ c ∈ s, cacheInv c

/-! ## Concrete fixtures for witnesses and counterexamples

The 64-bit hash is external (ahash), so concrete executions instantiate
the abstract hash field with an injective decimal encoding. -/

/-- A decimal digit per type-id, for concrete hash instances. -/
def tcode : TypeId → Nat
  | .tInt => 1
  | .tBool => 2
  | .tChar => 3
  | .tStr => 4
  | .tUnit => 5
  | .tFnPtr => 6
  | .tDynamic => 9

/-- Decimal encoding of a type-id list (leading `1` keeps it injective). -/
def encodeTypes (ts : List TypeId) : Nat :=
  ts.foldl (fun acc t => acc * 10 + tcode t) 1

/-- A concrete, collision-free stand-in for `calc_fn_hash_full`. -/
def testHash (b : Nat) (ts : List TypeId) : Nat := b * 10000 + encodeTypes ts

/-- A resolver context with no modules and no builtin operators. -/
def emptyEnv : ResolveEnv where
  hfull := testHash
  lib := []
  global_modules := []
  global_get_qualified_fn := fun _ => none
  global_may_contain_dynamic_fn := fun _ => false
  global_sub_modules := []
  get_builtin_binary_op_fn := fun _ _ _ => none
  get_builtin_op_assignment_fn := fun _ _ _ => none
  is_op_assignment := fun _ => false

/-- A trivial native body that leaves the slots as given. -/
def idFn : NativeFn := fun as_ => (.ok .unitD, as_)

/-! ## Helper lemmas -/

/-- The entry offered to the admission step is always the entry returned,
whichever way the bloom filter decides. -/
theorem offer_result (cache : FnResolutionCache) (mk fk : Nat)
    (e : Option FnResolutionCacheEntry) : (offer cache mk fk e).result = e := by
  unfold offer
  split <;> rfl

/-- No modelled value is a locked shared cell, so the data-race scan never
fires. -/
theorem find_locked_index_none (args : List Dynamic) :
    ∀ off, find_locked_index args off = none := by
  induction args with
  | nil => intro off; rfl
  | cons a rest ih =>
      intro off
      simp [find_locked_index, Dynamic.is_locked, ih]

/-- `ensure_no_data_race` succeeds on all modelled values. -/
theorem ensure_no_data_race_ok (fn_name : String) (args : List Dynamic)
    (is_ref_mut : Bool) : ensure_no_data_race fn_name args is_ref_mut = .ok () := by
  unfold ensure_no_data_race
  simp [find_locked_index_none]

/-! ## Claims -/

/-- C8: currying is associative with respect to subsequent call behavior:
`curry(curry(fp, a), b)` produces a pointer with the same name and the
same curried-argument sequence as `curry(fp, a, b)`, and a later call
through either pointer prepends the curried arguments, in order, before
the call-site arguments. -/
theorem curry_associative (fp : FnPtr) (a b : Dynamic) (cs : List Dynamic) :
    curry_form (curry_form fp [a]) [b] = curry_form fp [a, b] ∧
    (curry_form fp [a, b]).call_raw_args none cs = fp.curry ++ [a, b] ++ cs := by
  constructor
  · simp [curry_form]
  · simp [curry_form, FnPtr.call_raw_args, FnPtr.is_curried]

/-- C9: `is_def_fn(s, n)` returns `false` whenever `n < 0` or
`n > MAX_USIZE_INT`, without raising an error, and otherwise returns
whether a script function named `s` with arity `n` exists. -/
theorem is_def_fn_range (env : DefFnEnv) (s : String) (n : Int) :
    (n < 0 ∨ MAX_USIZE_INT < n → is_def_fn_form env s n = false) ∧
    (0 ≤ n → n ≤ MAX_USIZE_INT →
      is_def_fn_form env s n = env.has_script_fn (env.calc_fn_hash s n.toNat)) := by
  constructor
  · intro h
    unfold is_def_fn_form
    rcases h with h | h
    · simp [h]
    · simp [h]
  · intro h0 h1
    unfold is_def_fn_form
    rw [if_neg]
    simp only [Bool.or_eq_true, decide_eq_true_eq, not_or]
    exact ⟨not_lt.mpr h0, not_lt.mpr h1⟩

/-- Witness for C9 at concrete inputs: arity `-1` is rejected, arity `2`
consults the script-function table. -/
theorem is_def_fn_range_witness :
    is_def_fn_form ⟨fun _ n => n, fun _ => true⟩ "f" (-1) = false ∧
    is_def_fn_form ⟨fun _ n => n, fun _ => true⟩ "f" 2 = true := by
  refine ⟨(is_def_fn_range ⟨fun _ n => n, fun _ => true⟩ "f" (-1)).1 (Or.inl (by decide)), ?_⟩
  have h := (is_def_fn_range ⟨fun _ n => n, fun _ => true⟩ "f" 2).2 (by decide)
    (by unfold MAX_USIZE_INT; decide)
  simpa using h

/-- C6 counterexample: the claim fails on the code in two ways.  A name
carrying the reserved anonymous prefix is *not* exempt from the check —
`FnPtr::try_from` tests only `is_valid_function_name`, and `anon$0` is not
a valid identifier, so construction fails where the claim requires it to
succeed; moreover the failure carries the `FunctionNotFound` error kind,
not an `InvalidFunctionName` kind. -/
theorem fnptr_new_claim_cex :
    is_anonymous_fn "anon$0" = true ∧
    FnPtr.try_from "anon$0" = .error (.functionNotFound "anon$0" .nonePos) := by
  constructor
  · decide
  · rfl

/-- C6 (amended): constructing a function pointer from a string succeeds
iff the string is a valid function name — anonymous-prefixed names are not
exempt (the prefix contains `$`, which is not an identifier character) —
and otherwise fails with the `FunctionNotFound` error kind carrying the
rejected name; the `Fn(s)` form reports that failure at the position of
its argument. -/
theorem fnptr_new_amended (s : String) (p : Pos) :
    (is_valid_function_name s = true →
      FnPtr.try_from s = .ok { name := s, curry := [] } ∧
      fn_special_form (.strD s) p = .ok (.ofFnPtr { name := s, curry := [] })) ∧
    (is_valid_function_name s = false →
      FnPtr.try_from s = .error (.functionNotFound s .nonePos) ∧
      fn_special_form (.strD s) p = .error (.functionNotFound s p)) := by
  constructor
  · intro hv
    constructor
    · simp [FnPtr.try_from, hv]
    · simp [fn_special_form, Dynamic.strD, Dynamic.into_immutable_string,
        FnPtr.try_from, hv]
  · intro hv
    constructor
    · simp [FnPtr.try_from, hv]
    · simp [fn_special_form, Dynamic.strD, Dynamic.into_immutable_string,
        FnPtr.try_from, hv, Err.fill_position]

/-- Witness for C6 (amended) at concrete inputs: a valid name is accepted,
an invalid one is rejected with the argument's position filled in. -/
theorem fnptr_new_amended_witness :
    FnPtr.try_from "foo" = .ok { name := "foo", curry := [] } ∧
    fn_special_form (.strD "anon$0") (.at_ 1 2) =
      .error (.functionNotFound "anon$0" (.at_ 1 2)) :=
  ⟨((fnptr_new_amended "foo" .nonePos).1 (by decide)).1,
   ((fnptr_new_amended "anon$0" (.at_ 1 2)).2 (by decide)).2⟩

/-- C7 counterexample: the public named-function entry point does not
render a signature.  With an empty library, calling `foo` with one `i64`
argument raises `FunctionNotFound` carrying just `foo`, not the rendered
signature `foo (i64)` required by the claim. -/
theorem call_fn_not_found_cex :
    call_fn_core (fun _ _ => .ok .unitD) [] "foo" [.intD 1] =
      .error (.functionNotFound "foo" .nonePos) ∧
    gen_fn_call_signature "foo" [.intD 1] = "foo (i64)" ∧
    "foo" ≠ "foo (i64)" := by
  refine ⟨rfl, by decide, by decide⟩

/-- C7 (amended): the `FunctionNotFound` error of the native dispatch path
carries the rendered signature `name (T1, T2, …)` over the actual argument
type names, but the public named-function entry point
(`Engine::_call_fn`) reports a missing `name`/`arity` library entry with a
`FunctionNotFound` that carries only the function name, without a rendered
signature. -/
theorem function_not_found_signature
    (env : ResolveEnv) (g : GlobalState) (cache : FnResolutionCache)
    (fn_name : String) (op : Option OpToken) (hash : Nat) (args : List Dynamic)
    (is_ref_mut : Bool) (pos : Pos) (g1 : GlobalState)
    (run : ScriptFnDefKey → List Dynamic → Except Err Dynamic)
    (shared_lib : List ScriptFnDefKey) (name2 : String) (args2 : List Dynamic)
    (htrack : track_operation g pos = .ok g1)
    (hres : (resolve_fn env cache op hash (some args) true).result = none)
    (h1 : fn_name ≠ FN_IDX_GET) (h2 : fn_name ≠ FN_IDX_SET)
    (h3 : FN_GET.data.isPrefixOf fn_name.data = false)
    (h4 : FN_SET.data.isPrefixOf fn_name.data = false)
    (hlib : get_script_fn shared_lib name2 args2.length = none) :
    (exec_native_fn_call env g cache fn_name op hash args is_ref_mut pos).result =
      .error (.functionNotFound (gen_fn_call_signature fn_name args) pos) ∧
    call_fn_core run shared_lib name2 args2 =
      .error (.functionNotFound name2 .nonePos) := by
  constructor
  · unfold exec_native_fn_call
    rw [htrack]
    simp only [hres]
    unfold fn_call_error
    rw [if_neg h1, if_neg h2, if_neg (by simp [h3]), if_neg (by simp [h4])]
  · unfold call_fn_core
    rw [ensure_no_data_race_ok, hlib]

/-- Witness for C7 (amended) at concrete inputs: native dispatch renders
`foo (i64)`, the public entry point reports just `foo`. -/
theorem function_not_found_signature_witness :
    (exec_native_fn_call emptyEnv ⟨0, none⟩ .empty "foo" none 5 [.intD 1]
        false .nonePos).result =
      .error (.functionNotFound "foo (i64)" .nonePos) ∧
    call_fn_core (fun _ _ => .ok .unitD) [⟨"bar", ["x"]⟩] "foo" [.intD 1] =
      .error (.functionNotFound "foo" .nonePos) := by
  have h := function_not_found_signature emptyEnv ⟨0, none⟩ .empty "foo" none 5
    [.intD 1] false .nonePos ⟨1, none⟩ (fun _ _ => .ok .unitD)
    [⟨"bar", ["x"]⟩] "foo" [.intD 1]
    rfl rfl (by decide) (by decide) (by decide) (by decide) rfl
  have hs : gen_fn_call_signature "foo" [Dynamic.intD 1] = "foo (i64)" := by decide
  exact ⟨hs ▸ h.1, h.2⟩

/-- C4: for every pure native function called with a mutable reference as
the first argument slot (`is_ref_mut` true, non-empty args), the first
slot is swapped for a clone before invocation — the body receives the same
values but its writes to the first slot are discarded — and the original
is restored into the slot on every exit path (the final slots are computed
the same way whether the body succeeded or failed), so after the call the
caller's first-argument value is unchanged. -/
theorem pure_ref_mut_preserves_first_arg
    (env : ResolveEnv) (g : GlobalState) (cache : FnResolutionCache)
    (fn_name : String) (op : Option OpToken) (hash : Nat)
    (a : Dynamic) (rest : List Dynamic) (pos : Pos) (g1 : GlobalState)
    (entry : FnResolutionCacheEntry) (f : NativeFn)
    (htrack : track_operation g pos = .ok g1)
    (hres : (resolve_fn env cache op hash (some (a :: rest)) true).result = some entry)
    (hpure : entry.func.is_pure = true)
    (hnat : entry.func.nativeCall = some f) :
    (exec_native_fn_call env g cache fn_name op hash (a :: rest) true pos).args.head?
      = some a := by
  unfold exec_native_fn_call
  rw [htrack]
  simp only [hres, hnat, hpure]
  simp

/-- Witness for C4 at a concrete input: a pure native function resolved
from the cache, called with first slot `7`; the slot still holds `7`
afterwards. -/
theorem pure_ref_mut_preserves_first_arg_witness :
    (exec_native_fn_call emptyEnv ⟨0, none⟩
        ⟨[(50011, some ⟨.native true idFn, none⟩)], []⟩
        "f" none 5 [.intD 7] true .nonePos).args.head? = some (.intD 7) :=
  pure_ref_mut_preserves_first_arg emptyEnv ⟨0, none⟩
    ⟨[(50011, some ⟨.native true idFn, none⟩)], []⟩
    "f" none 5 (.intD 7) [] .nonePos ⟨1, none⟩
    ⟨.native true idFn, none⟩ idFn rfl rfl rfl rfl

/-- Does an error carry the `NonPureMethodCallOnConstant` kind? -/
def isNonPureErr : Err → Bool
  | .nonPureMethodCallOnConstant _ _ => true
  | _ => false

/-- Does a call result carry the `NonPureMethodCallOnConstant` kind? -/
def resultNonPure (r : Except Err (Dynamic × Bool)) : Bool :=
  match r with
  | .error e => isNonPureErr e
  | .ok _ => false

/-- Does the body's own outcome carry the kind (a host body may fabricate
any error, so the machinery-level claim is stated relative to bodies that
do not)? -/
def callNonPure (f : NativeFn) (as_ : List Dynamic) : Bool :=
  match (f as_).1 with
  | .error e => isNonPureErr e
  | .ok _ => false

/-- The resolution-failure errors never carry the
`NonPureMethodCallOnConstant` kind. -/
theorem fn_call_error_not_nonpure (n : String) (as_ : List Dynamic) (p : Pos) :
    isNonPureErr (fn_call_error n as_ p) = false := by
  unfold fn_call_error
  split_ifs <;> rfl

/-- The return-value check and `print`/`debug` post-processing never
introduce the `NonPureMethodCallOnConstant` kind: the post-processed
result carries it only if the body's own outcome did. -/
theorem resultNonPure_post_process (fn_name : String) (pos : Pos) (m : Bool)
    (f : NativeFn) (as_ : List Dynamic)
    (hbody : callNonPure f as_ = false) :
    resultNonPure (post_process fn_name pos m (f as_).1) = false := by
  unfold callNonPure at hbody
  unfold post_process check_return_value
  cases hfa : (f as_).1 with
  | error e =>
      rw [hfa] at hbody
      simpa [resultNonPure] using hbody
  | ok v =>
      by_cases hn : (fn_name = KEYWORD_PRINT ∨ fn_name = KEYWORD_DEBUG) <;>
        cases hv : v.into_immutable_string <;>
          simp [resultNonPure, isNonPureErr, hn, hv]

/-- C5: native invocation raises `ErrorNonPureMethodCallOnConstant`
exactly when the resolved callable is a plugin function that is not pure,
the argument list is non-empty, and the first argument slot is read-only
(stated over every resolution outcome, for bodies that do not fabricate
the error themselves: a resolution miss and a resolved non-plugin
callable never produce it); pure calls through read-only mutable
receivers never raise it and leave the caller's first slot unchanged,
whatever the resolved callable. -/
theorem plugin_nonpure_guard
    (env : ResolveEnv) (g : GlobalState) (cache : FnResolutionCache)
    (fn_name : String) (op : Option OpToken) (hash : Nat)
    (args : List Dynamic) (is_ref_mut : Bool) (pos : Pos) (g1 : GlobalState)
    (htrack : track_operation g pos = .ok g1)
    (hf : ∀ entry f,
      (resolve_fn env cache op hash (some args) true).result = some entry →
      entry.func.nativeCall = some f → ∀ as_, callNonPure f as_ = false) :
    resultNonPure
        (exec_native_fn_call env g cache fn_name op hash args is_ref_mut pos).result
      = (match (resolve_fn env cache op hash (some args) true).result with
         | some entry =>
             entry.func.is_plugin_fn && !entry.func.is_pure &&
               !args.isEmpty && (args.headD .unitD).readOnly
         | none => false) ∧
    (∀ entry a rest_,
      (resolve_fn env cache op hash (some args) true).result = some entry →
      args = a :: rest_ → entry.func.is_pure = true → is_ref_mut = true →
      (exec_native_fn_call env g cache fn_name op hash args is_ref_mut pos).args.head?
        = some a) := by
  constructor
  · unfold exec_native_fn_call
    rw [htrack]
    cases hresolve : (resolve_fn env cache op hash (some args) true).result with
    | none =>
        simp only [hresolve]
        simp [resultNonPure, fn_call_error_not_nonpure]
    | some entry =>
        simp only [hresolve]
        cases hnatc : entry.func.nativeCall with
        | none =>
            cases hfunc : entry.func with
            | script n ps =>
                simp [resultNonPure, isNonPureErr, CallableFunction.is_plugin_fn]
            | native p fb =>
                rw [hfunc] at hnatc
                simp [CallableFunction.nativeCall] at hnatc
            | plugin p fb =>
                rw [hfunc] at hnatc
                simp [CallableFunction.nativeCall] at hnatc
            | builtinOp fb =>
                rw [hfunc] at hnatc
                simp [CallableFunction.nativeCall] at hnatc
        | some f =>
            dsimp only
            by_cases hc : (entry.func.is_plugin_fn && !entry.func.is_pure &&
                !args.isEmpty && (args.headD .unitD).readOnly) = true
            · rw [if_pos hc, hc]
              simp [resultNonPure, isNonPureErr]
            · rw [Bool.not_eq_true] at hc
              rw [if_neg (by rw [hc]; decide)]
              dsimp only
              rw [hc]
              exact resultNonPure_post_process fn_name pos entry.func.is_method f args
                (hf entry f hresolve hnatc args)
  · intro entry a rest_ hresolve hargs hpure href
    subst hargs href
    unfold exec_native_fn_call
    rw [htrack]
    simp only [hresolve]
    cases hnatc : entry.func.nativeCall with
    | none => simp
    | some f => simp [hpure]

/-- Witness for C5 at concrete inputs: a non-pure plugin called on a
read-only first slot raises the guard error, a pure plugin on the same
read-only slot leaves the slot unchanged. -/
theorem plugin_nonpure_guard_witness :
    resultNonPure
        (exec_native_fn_call emptyEnv ⟨0, none⟩
          ⟨[(50011, some ⟨.plugin false idFn, none⟩)], []⟩
          "f" none 5 [.intV true 3] true .nonePos).result = true ∧
    (exec_native_fn_call emptyEnv ⟨0, none⟩
        ⟨[(50011, some ⟨.plugin true idFn, none⟩)], []⟩
        "f" none 5 [.intV true 3] true .nonePos).args.head? = some (.intV true 3) := by
  constructor
  · have hf1 : ∀ entry f,
        (resolve_fn emptyEnv ⟨[(50011, some ⟨.plugin false idFn, none⟩)], []⟩
          none 5 (some [.intV true 3]) true).result = some entry →
        entry.func.nativeCall = some f → ∀ as_, callNonPure f as_ = false := by
      intro entry f he hn as_
      have he2 : some ({ func := .plugin false idFn, source := none } :
          FnResolutionCacheEntry) = some entry := he
      injection he2 with he3
      subst he3
      have hn2 : some idFn = some f := hn
      injection hn2 with hn3
      subst hn3
      rfl
    have h := (plugin_nonpure_guard emptyEnv ⟨0, none⟩
      ⟨[(50011, some ⟨.plugin false idFn, none⟩)], []⟩
      "f" none 5 [.intV true 3] true .nonePos ⟨1, none⟩ rfl hf1).1
    exact h.trans rfl
  · have hf2 : ∀ entry f,
        (resolve_fn emptyEnv ⟨[(50011, some ⟨.plugin true idFn, none⟩)], []⟩
          none 5 (some [.intV true 3]) true).result = some entry →
        entry.func.nativeCall = some f → ∀ as_, callNonPure f as_ = false := by
      intro entry f he hn as_
      have he2 : some ({ func := .plugin true idFn, source := none } :
          FnResolutionCacheEntry) = some entry := he
      injection he2 with he3
      subst he3
      have hn2 : some idFn = some f := hn
      injection hn2 with hn3
      subst hn3
      rfl
    exact (plugin_nonpure_guard emptyEnv ⟨0, none⟩
      ⟨[(50011, some ⟨.plugin true idFn, none⟩)], []⟩
      "f" none 5 [.intV true 3] true .nonePos ⟨1, none⟩ rfl hf2).2
      ⟨.plugin true idFn, none⟩ (.intV true 3) [] rfl rfl rfl rfl

/-- C10: when the resolver is invoked without argument slots (the
script-function resolution path, probing by base hash alone), the outcome
is determined by the call-site library and the engine's global modules
alone — whatever the imports-stack qualified index and the static
sub-modules contain — so a script function reachable only through an
imported module is never returned by this path. -/
theorem script_path_searches_only_locally
    (env : ResolveEnv) (cache : FnResolutionCache) (op : Option OpToken)
    (hash_base : Nat) (ad : Bool)
    (hb : hash_base ≠ 0)
    (hmiss : mapLookup cache.map hash_base = none) :
    (resolve_fn env cache op hash_base none ad).result =
      (find_map_fn (env.lib ++ env.global_modules) hash_base).map
        (fun fs => { func := fs.1, source := fs.2 }) := by
  unfold resolve_fn typed_hash
  rw [if_neg hb]
  simp only [hmiss]
  unfold ResolveEnv.search
  simp only [Option.isSome_none, Bool.false_eq_true, if_false]
  cases hbase : find_map_fn (env.lib ++ env.global_modules) hash_base with
  | some fs => simp [hbase, offer_result]
  | none => simp [hbase, resolve_probe_loop]

/-- Witness for C10 at a concrete input: a function reachable only through
the imports-stack qualified index is not found by the no-slots path. -/
theorem script_path_searches_only_locally_witness :
    (resolve_fn
      { emptyEnv with
        global_get_qualified_fn := fun h =>
          if h = 7 then some (.script "f" [], some "imported") else none }
      .empty none 7 none true).result = none := by
  have h := script_path_searches_only_locally
    { emptyEnv with
      global_get_qualified_fn := fun h =>
        if h = 7 then some (.script "f" [], some "imported") else none }
    .empty none 7 true (by decide) rfl
  simpa using h

/-- C1 counterexample: a negative resolution of a one-argument call (base
hash `5`, argument `3`) does not set the filter bit — the first resolution
leaves the filter empty where the claim requires the bit to be set — and a
second resolution of the same hash still inserts nothing into the map,
where the claim requires a negative entry to be inserted. -/
theorem cache_admission_cex :
    (resolve_fn emptyEnv .empty none 5 (some [.intD 3]) true).result = none ∧
    (resolve_fn emptyEnv .empty none 5 (some [.intD 3]) true).cache.filter = [] ∧
    (resolve_fn emptyEnv
        (resolve_fn emptyEnv .empty none 5 (some [.intD 3]) true).cache
        none 5 (some [.intD 3]) true).cache.map = [] :=
  ⟨rfl, rfl, rfl⟩

/-- The two-sighting admission behavior at filter key `k` and map key
`hash`: on a first sighting (`k` not yet in the filter) the bit for `k` is
set and the entry is returned from the caller-local scratch slot with the
map untouched; on a second sighting (`k` already in the filter) the entry
is inserted into the map under `hash`. -/
def two_sighting (env : ResolveEnv) (cache : FnResolutionCache)
    (op : Option OpToken) (hash_base : Nat) (args : Option (List Dynamic))
    (ad : Bool) (hash k : Nat) (e : Option FnResolutionCacheEntry) : Prop :=
  (k ∉ cache.filter →
    resolve_fn env cache op hash_base args ad =
      { result := e, cache := { map := cache.map, filter := k :: cache.filter },
        local_entry := e }) ∧
  (k ∈ cache.filter →
    resolve_fn env cache op hash_base args ad =
      { result := e, cache := { map := (hash, e) :: cache.map, filter := cache.filter },
        local_entry := none })

/-- C1 (amended): on a cache miss, the two-sighting bloom-filter admission
applies exactly to the outcomes that are offered to the cache — every
positive resolution, whether found at the typed probe or at a wildcard
probe, and, for two-argument calls, the (possibly negative) builtin-probe
outcome — keyed in the filter by the hash at which the search cascade
concluded (the typed hash, or the final wildcard probe hash when fallback
probes ran) and in the map by the typed hash: on a first sighting the
filter bit is set and the entry lives in the caller-local scratch slot
with the map untouched, on a second sighting the entry (including a
negative one in the two-argument case) is inserted into the map.  A
negative resolution of any other arity returns `none` without setting any
filter bit or inserting into the map, so it is never cached. -/
theorem cache_admission_amended
    (env : ResolveEnv) (cache : FnResolutionCache) (op : Option OpToken)
    (hash_base : Nat) (args : Option (List Dynamic)) (ad : Bool)
    (hash M : Nat) (step : Nat × Option (CallableFunction × Option String))
    (hb : hash_base ≠ 0)
    (hhash : hash = typed_hash env hash_base args)
    (hM : M = if ad && decide (0 < (args.map List.length).getD 0) &&
          env.is_dynamic hash_base
        then 1 <<< min ((args.map List.length).getD 0) MAX_DYNAMIC_PARAMETERS
        else 0)
    (hstep : step = resolve_probe_loop env args.isSome hash_base
        ((args.getD []).map Dynamic.type_id) M M hash 1)
    (hmiss : mapLookup cache.map hash = none) :
    (∀ f s, env.search args.isSome hash = some (f, s) →
      two_sighting env cache op hash_base args ad hash hash
        (some { func := f, source := s })) ∧
    (env.search args.isSome hash = none →
      (∀ f s, step.2 = some (f, s) →
        two_sighting env cache op hash_base args ad hash step.1
          (some { func := f, source := s })) ∧
      (step.2 = none →
        (∀ a b, args = some [a, b] →
          two_sighting env cache op hash_base args ad hash step.1
            (builtin_outcome env op [a, b])) ∧
        ((args.map List.length).getD 0 ≠ 2 →
          resolve_fn env cache op hash_base args ad =
            { result := none, cache := cache, local_entry := none }))) := by
  have key : ∀ (k : Nat) (e : Option FnResolutionCacheEntry),
      resolve_fn env cache op hash_base args ad = offer cache hash k e →
      two_sighting env cache op hash_base args ad hash k e := by
    intro k e hk
    constructor
    · intro hnot
      rw [hk]
      unfold offer
      rw [if_neg hnot]
    · intro hmem
      rw [hk]
      unfold offer
      rw [if_pos hmem]
  refine ⟨?_, ?_⟩
  · intro f s hsearch
    refine key _ _ ?_
    unfold resolve_fn
    rw [if_neg hb, ← hhash]
    simp only [hmiss, hsearch]
  · intro hsearch
    refine ⟨?_, ?_⟩
    · intro f s hstep2
      refine key _ _ ?_
      unfold resolve_fn
      rw [if_neg hb, ← hhash]
      simp only [hmiss, hsearch]
      rw [← hM, ← hstep]
      simp only [hstep2]
    · intro hstep2
      refine ⟨?_, ?_⟩
      · intro a b hab
        subst hab
        refine key _ _ ?_
        unfold resolve_fn
        rw [if_neg hb, ← hhash]
        simp only [hmiss, hsearch]
        rw [← hM, ← hstep]
        simp only [hstep2, Option.getD_some]
        norm_num
      · intro hne
        unfold resolve_fn
        rw [if_neg hb, ← hhash]
        simp only [hmiss, hsearch]
        rw [← hM, ← hstep]
        simp only [hstep2]
        rw [if_pos hne]

/-- A resolver context with one library module holding a pure native
function under the typed hash `50011` (= `testHash 5 [tInt]`). -/
def envPosM : ResolveEnv :=
  { emptyEnv with
    lib := [{ id := some "m",
              get_fn := fun h => if h = 50011 then some (.native true idFn) else none,
              get_qualified_fn := fun _ => none,
              may_contain_dynamic_fn := fun _ => false }] }

/-- A resolver context whose library module registers a function only at
the wildcard probe hash `1000019` (= `testHash 100 [tDynamic]`) and
advertises dynamic overloads for the base hash `100`; the typed hash of a
one-integer call is `1000011` (= `testHash 100 [tInt]`). -/
def envDyn : ResolveEnv :=
  { emptyEnv with
    lib := [{ id := some "m",
              get_fn := fun h => if h = 1000019 then some (.native true idFn) else none,
              get_qualified_fn := fun _ => none,
              may_contain_dynamic_fn := fun h => h = 100 }] }

/-- Witness for C1 (amended) at concrete inputs: a positive resolution
found at the typed probe is kept in the scratch slot (filter bit set, map
untouched) on first sighting and inserted into the map on second
sighting; with wildcard fallback allowed, a positive resolution found at
a wildcard probe sets the filter bit of the probe hash `1000019` on first
sighting while the map stays untouched. -/
theorem cache_admission_amended_witness :
    resolve_fn envPosM .empty none 5 (some [.intD 7]) false =
      { result := some { func := .native true idFn, source := some "m" },
        cache := { map := [], filter := [50011] },
        local_entry := some { func := .native true idFn, source := some "m" } } ∧
    resolve_fn envPosM { map := [], filter := [50011] } none 5 (some [.intD 7]) false =
      { result := some { func := .native true idFn, source := some "m" },
        cache := { map := [(50011, some { func := .native true idFn, source := some "m" })],
                   filter := [50011] },
        local_entry := none } ∧
    resolve_fn envDyn .empty none 100 (some [.intD 1]) true =
      { result := some { func := .native true idFn, source := some "m" },
        cache := { map := [], filter := [1000019] },
        local_entry := some { func := .native true idFn, source := some "m" } } := by
  refine ⟨?_, ?_, ?_⟩
  · exact ((cache_admission_amended envPosM .empty none 5 (some [.intD 7]) false
      50011 0 (50011, none)
      (by decide) rfl rfl rfl rfl).1 (.native true idFn) (some "m") rfl).1 (by decide)
  · exact ((cache_admission_amended envPosM { map := [], filter := [50011] } none 5
      (some [.intD 7]) false 50011 0 (50011, none)
      (by decide) rfl rfl rfl rfl).1 (.native true idFn) (some "m") rfl).2 (by decide)
  · exact ((((cache_admission_amended envDyn .empty none 100 (some [.intD 1]) true
      1000011 2 (1000019, some (.native true idFn, some "m"))
      (by decide) rfl rfl rfl rfl).2 rfl).1 (.native true idFn) (some "m") rfl).1
      (by decide))

/-- C2 counterexample: the invariant is not preserved by a resolution that
concludes at a wildcard probe.  Resolving base hash `100` with one integer
argument twice against `envDyn` ends with the map holding the typed hash
`1000011` while the filter holds only the wildcard probe hash `1000019` —
a map key whose filter bit is unset. -/
theorem cache_invariant_cex :
    ¬ cacheInv (resolve_fn envDyn
        (resolve_fn envDyn .empty none 100 (some [.intD 1]) true).cache
        none 100 (some [.intD 1]) true).cache := by
  intro hinv
  have hmem : ((1000011 : Nat),
      some ({ func := .native true idFn, source := some "m" } : FnResolutionCacheEntry)) ∈
      (resolve_fn envDyn
        (resolve_fn envDyn .empty none 100 (some [.intD 1]) true).cache
        none 100 (some [.intD 1]) true).cache.map := by
    show _ ∈ [((1000011 : Nat),
      some ({ func := .native true idFn, source := some "m" } : FnResolutionCacheEntry))]
    exact List.mem_singleton.mpr rfl
  have h2 := hinv _ _ hmem
  have h3 : (1000011 : Nat) ∈ [(1000019 : Nat)] := h2
  simp at h3

/-- Inserting under a key whose filter bit is set preserves the invariant. -/
theorem cacheInv_insert (cache : FnResolutionCache) (hash : Nat)
    (e : Option FnResolutionCacheEntry) (hmem : hash ∈ cache.filter)
    (hinv : cacheInv cache) :
    cacheInv { map := (hash, e) :: cache.map, filter := cache.filter } := by
  intro h x hx
  rcases List.mem_cons.mp hx with hx | hx
  · cases hx
    exact hmem
  · exact hinv h x hx

/-- Growing the filter preserves the invariant. -/
theorem cacheInv_filter_grow (cache : FnResolutionCache) (k : Nat)
    (hinv : cacheInv cache) :
    cacheInv { map := cache.map, filter := k :: cache.filter } := by
  intro h x hx
  exact List.mem_cons.mpr (Or.inr (hinv h x hx))

/-- The admission step preserves the invariant when the filter key equals
the map key. -/
theorem cacheInv_offer (cache : FnResolutionCache) (hash : Nat)
    (e : Option FnResolutionCacheEntry) (hinv : cacheInv cache) :
    cacheInv (offer cache hash hash e).cache := by
  unfold offer
  by_cases hmem : hash ∈ cache.filter
  · rw [if_pos hmem]
    exact cacheInv_insert cache hash e hmem hinv
  · rw [if_neg hmem]
    exact cacheInv_filter_grow cache hash hinv

/-- C2 (amended): every hash present as a key in the cache map has its
filter bit set — preserved by `clear`, `push` and `rewind` always, and by
a resolution whenever it does not conclude at a wildcard probe (wildcard
fallback disallowed, or no searched module advertises dynamic overloads,
or the function found at the original typed probe).  A resolution that
concludes at a wildcard probe may insert the typed hash into the map while
only the final probe hash has its filter bit set, breaking the invariant
(see the counterexample). -/
theorem cache_invariant_amended :
    (∀ c : FnResolutionCache, cacheInv c.clear) ∧
    (∀ s : CachesStack, cachesInv s → cachesInv (push_fn_resolution_cache s)) ∧
    (∀ (s : CachesStack) (n : Nat), cachesInv s →
      cachesInv (rewind_fn_resolution_caches s n)) ∧
    (∀ (env : ResolveEnv) (cache : FnResolutionCache) (op : Option OpToken)
        (hash_base : Nat) (args : Option (List Dynamic)) (ad : Bool),
      cacheInv cache →
      (ad = false ∨ env.is_dynamic hash_base = false ∨
        (env.search args.isSome (typed_hash env hash_base args)).isSome = true) →
      cacheInv (resolve_fn env cache op hash_base args ad).cache) := by
  refine ⟨?_, ?_, ?_, ?_⟩
  · intro c h x hx
    simp [FnResolutionCache.clear, FnResolutionCache.empty] at hx
  · intro s hs c hc
    rcases List.mem_append.mp hc with hc | hc
    · exact hs c hc
    · rcases List.mem_singleton.mp hc with rfl
      intro h x hx
      simp [FnResolutionCache.empty] at hx
  · intro s n hs c hc
    exact hs c (List.take_subset n s hc)
  · intro env cache op hash_base args ad hinv hguard
    unfold resolve_fn
    by_cases hb0 : hash_base = 0
    · rw [if_pos hb0]
      exact hinv
    rw [if_neg hb0]
    cases hlook : mapLookup cache.map (typed_hash env hash_base args) with
    | some stored =>
        simp only [hlook]
        exact hinv
    | none =>
        simp only [hlook]
        cases hsearch : env.search args.isSome (typed_hash env hash_base args) with
        | some fs =>
            simp only [hsearch]
            exact cacheInv_offer _ _ _ hinv
        | none =>
            simp only [hsearch]
            have hmax :
                (if ad && decide (0 < (args.map List.length).getD 0) &&
                    env.is_dynamic hash_base
                  then 1 <<< min ((args.map List.length).getD 0) MAX_DYNAMIC_PARAMETERS
                  else 0) = 0 := by
              rcases hguard with h | h | h
              · rw [h]
                simp
              · rw [h]
                simp
              · rw [hsearch] at h
                simp at h
            rw [hmax]
            simp only [resolve_probe_loop]
            by_cases hne : (args.map List.length).getD 0 ≠ 2
            · rw [if_pos hne]
              exact hinv
            · rw [if_neg hne]
              exact cacheInv_offer _ _ _ hinv

/-- Witness for C2 (amended) at concrete inputs, one per operation. -/
theorem cache_invariant_amended_witness :
    cacheInv (FnResolutionCache.clear { map := [(3, none)], filter := [] }) ∧
    cachesInv (push_fn_resolution_cache []) ∧
    cachesInv (rewind_fn_resolution_caches [FnResolutionCache.empty] 0) ∧
    cacheInv (resolve_fn emptyEnv .empty none 5 (some [.intD 1]) false).cache := by
  have hempty : cacheInv FnResolutionCache.empty := by
    intro h x hx
    simp [FnResolutionCache.empty] at hx
  refine ⟨cache_invariant_amended.1 _,
    cache_invariant_amended.2.1 [] (by intro c hc; simp at hc),
    cache_invariant_amended.2.2.1 [FnResolutionCache.empty] 0
      (by intro c hc; rcases List.mem_singleton.mp hc with rfl; exact hempty),
    cache_invariant_amended.2.2.2 emptyEnv .empty none 5 (some [.intD 1]) false
      hempty (Or.inl rfl)⟩

/-- The source's shift-and-mask test agrees with the spec-side
`Nat.testBit`. -/
theorem and_shift_eq_zero (m k : Nat) :
    (m &&& (1 <<< k) = 0) ↔ m.testBit k = false := by
  rw [Nat.one_shiftLeft, Nat.and_two_pow]
  have h2 : 0 < 2 ^ k := Nat.pow_pos (by omega)
  cases h : m.testBit k
  · simp
  · simp only [Bool.toNat_true, one_mul]
    constructor
    · intro hx
      exact absurd hx (by omega)
    · intro hx
      exact absurd hx (by decide)

/-- The probe hash computed by the source equals the hash of the
spec-side wildcard substitution. -/
theorem probe_hash_eq_spec (env : ResolveEnv) (hash_base : Nat)
    (args : List TypeId) (m : Nat) :
    probe_hash env hash_base args m =
      env.hfull hash_base (spec_wildcard_types args m) := by
  unfold probe_hash spec_wildcard_types
  refine congrArg (env.hfull hash_base) ?_
  refine congrArg (fun fn => List.map fn args.enum) ?_
  funext p
  have hk : args.length - p.1 - 1 = args.length - 1 - p.1 := by omega
  rw [hk]
  cases h : m.testBit (args.length - 1 - p.1) with
  | false =>
      rw [if_pos ((and_shift_eq_zero m _).mpr h)]
      simp
  | true =>
      rw [if_neg (fun hx => by rw [(and_shift_eq_zero m _).mp hx] at h; cases h)]
      simp

/-- The probe loop returns the first success over the masks
`b, b+1, …, max_bitmask - 1` in increasing order. -/
theorem probe_loop_find (env : ResolveEnv) (hasArgs : Bool) (hash_base : Nat)
    (args : List TypeId) (max_bitmask : Nat) :
    ∀ (fuel hash b : Nat), max_bitmask - b ≤ fuel →
      (resolve_probe_loop env hasArgs hash_base args max_bitmask fuel hash b).2 =
        (List.range' b (max_bitmask - b)).findSome?
          (fun m => env.search hasArgs (probe_hash env hash_base args m)) := by
  intro fuel
  induction fuel with
  | zero =>
      intro hash b hle
      rw [Nat.le_zero.mp hle]
      rfl
  | succ n ih =>
      intro hash b hle
      by_cases hb : max_bitmask ≤ b
      · rw [Nat.sub_eq_zero_of_le hb]
        unfold resolve_probe_loop
        rw [if_pos hb]
        rfl
      · push_neg at hb
        have hsub : max_bitmask - b = (max_bitmask - (b + 1)) + 1 := by omega
        rw [hsub, List.range'_succ]
        unfold resolve_probe_loop
        rw [if_neg (by omega)]
        cases hs : env.search hasArgs (probe_hash env hash_base args b) with
        | some fs => simp [List.findSome?, hs]
        | none =>
            simp only [List.findSome?, hs]
            exact ih _ _ (by omega)

/-- C3: on a cache miss where the typed-hash probe finds nothing, wildcard
fallback is allowed, the arity is positive and a searched module
advertises dynamic overloads for the base hash, the resolver's outcome is
the first success over exactly the bitmasks
`1 .. 2^min(arity, MAX_DYNAMIC_PARAMETERS)` (upper bound excluded) in
increasing numeric order, where each bitmask replaces the type-ids of its
set bits by the `Dynamic` wildcard with the most-significant bit
corresponding to the left-most parameter; when every probe fails, the
two-argument case falls back to the built-in operator tables and any other
arity resolves to nothing. -/
theorem wildcard_probe_order
    (env : ResolveEnv) (cache : FnResolutionCache) (op : Option OpToken)
    (hash_base : Nat) (args : List Dynamic)
    (hb : hash_base ≠ 0)
    (hmiss : mapLookup cache.map (typed_hash env hash_base (some args)) = none)
    (hsearch : env.search true (typed_hash env hash_base (some args)) = none)
    (hdyn : env.is_dynamic hash_base = true)
    (hargs : args ≠ []) :
    (resolve_fn env cache op hash_base (some args) true).result =
      match spec_wildcard_lookup env true hash_base (args.map Dynamic.type_id)
          (1 <<< min args.length MAX_DYNAMIC_PARAMETERS) with
      | some fs => some { func := fs.1, source := fs.2 }
      | none => if args.length = 2 then builtin_outcome env op args else none := by
  have hlen : 0 < args.length := List.length_pos.mpr hargs
  have key : (resolve_fn env cache op hash_base (some args) true).result =
      match (List.range' 1 (1 <<< min args.length MAX_DYNAMIC_PARAMETERS - 1)).findSome?
          (fun m => env.search true (probe_hash env hash_base
            (List.map Dynamic.type_id args) m)) with
      | some fs => some { func := fs.1, source := fs.2 }
      | none => if args.length = 2 then builtin_outcome env op args else none := by
    unfold resolve_fn
    rw [if_neg hb]
    simp only [hmiss, Option.isSome_some, hsearch, Option.map_some', Option.getD_some,
      hdyn, Bool.and_true, Bool.true_and, decide_eq_true hlen, if_true]
    rw [probe_loop_find env true hash_base (List.map Dynamic.type_id args)
      (1 <<< min args.length MAX_DYNAMIC_PARAMETERS)
      (1 <<< min args.length MAX_DYNAMIC_PARAMETERS)
      (typed_hash env hash_base (some args)) 1 (Nat.sub_le _ _)]
    generalize (List.range' 1 (1 <<< min args.length MAX_DYNAMIC_PARAMETERS - 1)).findSome?
        (fun m => env.search true (probe_hash env hash_base
          (List.map Dynamic.type_id args) m)) = res
    cases res with
    | some fs => simp [offer_result]
    | none =>
        by_cases h2 : args.length = 2
        · simp [h2, offer_result]
        · simp [h2]
  rw [key]
  have hfun :
      (fun m => env.search true (probe_hash env hash_base
        (List.map Dynamic.type_id args) m)) =
      (fun m => env.search true
        (env.hfull hash_base (spec_wildcard_types (List.map Dynamic.type_id args) m))) := by
    funext m
    rw [probe_hash_eq_spec]
  unfold spec_wildcard_lookup
  rw [hfun]

/-- A resolver context for the wildcard-order witness: base hash `7`,
argument types `(i64, string)` (typed hash `70114`); the library registers
a native function at the mask-1 probe hash `70119` (right-most parameter
wildcarded) and a plugin function at the mask-2 probe hash `70194`
(left-most parameter wildcarded), and advertises dynamic overloads. -/
def envC3 : ResolveEnv :=
  { emptyEnv with
    lib := [{ id := some "m3",
              get_fn := fun h =>
                if h = 70119 then some (.native true idFn)
                else if h = 70194 then some (.plugin true idFn)
                else none,
              get_qualified_fn := fun _ => none,
              may_contain_dynamic_fn := fun h => h = 7 }] }

/-- Witness for C3 at a concrete input: although both mask 1 and mask 2
would find a function, the smaller bitmask wins, so the resolver returns
the function registered under the mask-1 probe. -/
theorem wildcard_probe_order_witness :
    (resolve_fn envC3 .empty none 7 (some [.intD 1, .strD "x"]) true).result =
      some { func := .native true idFn, source := some "m3" } := by
  have h := wildcard_probe_order envC3 .empty none 7 [.intD 1, .strD "x"]
    (by decide) rfl rfl rfl (List.cons_ne_nil _ _)
  exact h.trans rfl

end Rhai
